import Mathlib

/-!
Verification of the chat-lib client SDK specification against a shallow
embedding of the source.  The embedded functions are translated from:

* `src/js/util.js` (merged file; second document is the WebSocket endpoint
  `WebSocketEndpoint` with `#getWebSocketForAlias` / `openWebSocketFor`),
* `src/src/Client.js` (the facade `Client`: event redirect, `getMessages`,
  `groupMessagesByUniqueRecipients`, `subscribe`/`unsubscribe`),
* `src/src/MessagesEndpoint.js` (`getMessagesForAlias`),
* `src/src/endpoints/PrivateDataEndpoint.js` (`getPayload`, `updatePayload`,
  `deletePayload`),
* `src/unnamed/part_013` (transport helpers: `getErrorFromResponse`,
  `toArray`, `intersection`).

JavaScript machine behaviour relevant to the embedding:

* object property tables are modelled as association lists in insertion
  order (`headers[k] = v` appends or overwrites in place, `delete` removes);
* `JSON.parse` on a malformed string throws; this is modelled by a
  `RawFrame.malformed` constructor;
* an exception thrown inside a DOM event listener is reported to the host
  environment and swallowed by the event loop: it neither reaches
  application code nor closes the WebSocket;
* `new Set(arr)` iterates in first-occurrence order, modelled by `uniqueJs`;
* `Array.prototype.sort()` with no comparator sorts strings
  lexicographically, modelled by `sortStrings`.
-/

deriving instance DecidableEq for Except

namespace ChatLib

/-- The errors a modelled JavaScript computation can throw. -/
inductive JsError where
  /-- `JSON.parse` (or `response.json()`) failed on a malformed document. -/
  | parseError : JsError
  /-- An identifier was evaluated that is not bound anywhere in scope. -/
  | referenceError (ident : String) : JsError
  /-- A property of `undefined` was accessed. -/
  | typeError : JsError
  /-- `throw new Error(msg)`. -/
  | appError (msg : String) : JsError
deriving DecidableEq, Repr

/-- An identity (alias): the addressable sender/recipient unit.
Only the fields the verified claims touch are carried. -/
structure Identity where
  id : String
  handle : String
deriving DecidableEq, Repr

/-- A chat message as the client sees it: an id, a sender identity and a
non-empty list of recipient identities (`src/src/models`, `Message`). -/
structure Message where
  id : String
  sender : Identity
  recipients : List Identity
deriving DecidableEq, Repr

/-- The traversal underlying `[...new Set(arr)]`: keep each element whose
value has not been seen yet, in order. -/
def uniqueJsAux (seen : List String) : List String → List String
  | [] => []
  | x :: xs =>
    if x ∈ seen then uniqueJsAux seen xs
    else x :: uniqueJsAux (x :: seen) xs

/-- `unique` from the client utilities: `[...new Set(arr)]`, i.e. the list
with later duplicates removed, keeping first occurrences in order.
Modelled from the spec: the helper `unique` is imported by
`src/src/Client.js` from `./util.js`, whose snapshot (`src/unnamed/part_013`)
predates it; `[...new Set(arr)]` is the unique behaviour consistent with
every use site. -/
def uniqueJs (l : List String) : List String :=
  uniqueJsAux [] l

/-- `intersection(arr1, arr2)` from `src/unnamed/part_013` (the client
`util.js`): `new Set([...new Set(arr1)].filter(x => new Set(arr2).has(x)))`.
The resulting set is modelled as its iteration order: the distinct elements
of `arr1`, in first-occurrence order, that also occur in `arr2`; the JS
`size` of the set is the length of this list. -/
def intersectionJs (arr1 arr2 : List String) : List String :=
  (uniqueJs arr1).filter (fun x => arr2.contains x)

/-! ## Realtime subscription manager

`WebSocketEndpoint` from `src/js/util.js` (second document of the merged
file).  Sockets are identified by the order in which `new WebSocket(url)`
is evaluated; `attempts` counts those constructor calls, i.e. underlying
connection attempts. -/

/-- A JS object property table: an association list in insertion order. -/
abbrev JsObj (β : Type) := List (String × β)

/-- `obj[k] = v`: overwrite in place if the key exists, else append. -/
def jsObjSet {β : Type} : JsObj β → String → β → JsObj β
  | [], k, v => [(k, v)]
  | (k', v') :: rest, k, v =>
    if k' = k then (k', v) :: rest else (k', v') :: jsObjSet rest k v

/-- `delete obj[k]`. -/
def jsObjDelete {β : Type} (o : JsObj β) (k : String) : JsObj β :=
  o.filter (fun p => p.1 ≠ k)

/-- `obj.hasOwnProperty(k)` / `obj[k]` lookup. -/
def jsObjGet {β : Type} (o : JsObj β) (k : String) : Option β :=
  match o.find? (fun p => p.1 = k) with
  | some p => some p.2
  | none => none

/-- The state of `WebSocketEndpoint`.
`aliasNameToWebSocket` is the private cache `#aliasNameToWebSocket`
(only populated by the `open` listener of a socket); `pending` records sockets
that have been constructed but whose `open`/`error` event has not fired
yet, together with the alias they were opened for; `nextSocket` supplies
fresh socket identities; `attempts` counts `new WebSocket(url)` calls. -/
structure WSState where
  aliasNameToWebSocket : JsObj Nat := []
  pending : List (String × Nat) := []
  nextSocket : Nat := 0
  attempts : Nat := 0
deriving DecidableEq, Repr

/-- What a call to `#getWebSocketForAlias` did. -/
inductive SubscribeStep where
  /-- The cache had a socket for the alias: the promise resolves at once
  with that socket and no connection attempt is made. -/
  | resolvedFromCache (socket : Nat) : SubscribeStep
  /-- No cached socket: `new WebSocket(url)` was evaluated and the promise
  stays pending until the `open` or `error` event of the socket. -/
  | attemptStarted (socket : Nat) : SubscribeStep
deriving DecidableEq, Repr

/-- `WebSocketEndpoint.#getWebSocketForAlias(aliasName)`
(`src/js/util.js` lines 77–100): if `#aliasNameToWebSocket` has an entry
for the alias, resolve with it; otherwise construct a new `WebSocket`
(one more connection attempt) whose `open` listener will later populate
the cache.  Note the cache is written only in the `open` listener, so a
call made while a previous attempt for the same alias is still connecting
takes the `else` branch again. -/
def getWebSocketForAlias (s : WSState) (aliasName : String) :
    WSState × SubscribeStep :=
  match jsObjGet s.aliasNameToWebSocket aliasName with
  | some socket => (s, .resolvedFromCache socket)
  | none =>
    ({ aliasNameToWebSocket := s.aliasNameToWebSocket,
       pending := s.pending ++ [(aliasName, s.nextSocket)],
       nextSocket := s.nextSocket + 1,
       attempts := s.attempts + 1 },
     .attemptStarted s.nextSocket)

/-- The `open` listener of a socket (`src/js/util.js` lines 90–93): cache the
socket under its alias and resolve the pending promise. -/
def socketOpenEvent (s : WSState) (aliasName : String) (socket : Nat) : WSState :=
  { s with
    aliasNameToWebSocket := jsObjSet s.aliasNameToWebSocket aliasName socket,
    pending := s.pending.erase (aliasName, socket) }

/-- The `close` listener of a socket (`src/js/util.js` lines 98–100):
`delete this.#aliasNameToWebSocket[aliasName]`. -/
def socketCloseEvent (s : WSState) (aliasName : String) : WSState :=
  { s with aliasNameToWebSocket := jsObjDelete s.aliasNameToWebSocket aliasName }

/-- The `error` listener of a socket rejects the pending promise; the failed
socket never enters the cache. -/
def socketErrorEvent (s : WSState) (aliasName : String) (socket : Nat) : WSState :=
  { s with pending := s.pending.erase (aliasName, socket) }

/-- Modelled from the spec: `WebSocketEndpoint.closeWebSocketFor(handle)`.
The method is called by `Client.unsubscribe` (`src/src/Client.js` lines
531–533) but its defining file `src/endpoints/WebSocketEndpoint.js` is
absent from the snapshot; per spec §4.1, `unsubscribe(handle)` closes the
cached connection and removes it when one is `OPEN`, and is a no-op that
never throws when already `UNSUBSCRIBED`. -/
def closeWebSocketFor (s : WSState) (handle : String) : WSState :=
  match jsObjGet s.aliasNameToWebSocket handle with
  | some _ => socketCloseEvent s handle
  | none => s

/-- `Client.unsubscribe(handle)` (`src/src/Client.js` lines 531–533):
delegates to `closeWebSocketFor`. -/
def clientUnsubscribe (s : WSState) (handle : String) : WSState :=
  closeWebSocketFor s handle

/-! ## Inbound frame handling -/

/-- The result of `JSON.parse(evt.data)` on an inbound frame, with the
three properties the listener reads (`data.type`, `data.messageId`,
`data.message`); a property absent from the document reads as
`undefined`, modelled by `none`. -/
structure FrameData where
  type? : Option String := none
  messageId? : Option String := none
  message? : Option String := none
deriving DecidableEq, Repr

/-- A raw inbound frame: either a JSON document or a string on which
`JSON.parse` throws. -/
inductive RawFrame where
  | malformed : RawFrame
  | parsed (data : FrameData) : RawFrame
deriving DecidableEq, Repr

/-- The discriminant dispatch of the `message` listener
(`src/js/util.js` lines 106–114): the outward event name chosen for the
three message discriminants, none otherwise. -/
def messageEventNameFor (type? : Option String) : Option String :=
  if type? = some "new_message" then some "message"
  else if type? = some "message_update" then some "messageupdate"
  else if type? = some "message_delete" then some "messagedelete"
  else none

/-- An event dispatched on the endpoint, with its `CustomEvent` detail. -/
structure EmittedEvent where
  name : String
  messageId? : Option String := none
  message? : Option String := none
deriving DecidableEq, Repr

/-- The `message` listener of `src/js/util.js` (lines 102–135), run on an
already-parsed frame.  For the three message discriminants the listener
builds the `CustomEvent` detail object naming `messageId` and `alias`; the identifier
`alias` is not bound anywhere in that module (the enclosing parameter is
named `aliasName`), so evaluating the detail object throws a
`ReferenceError` before any event is dispatched.  The `unauthorized`
branch references the same unbound `alias` in its detail.  Frames with
any other discriminant run to completion and dispatch nothing. -/
def wsUtilJsListener (data : FrameData) : Except JsError (List EmittedEvent) :=
  match messageEventNameFor data.type? with
  | some _ => .error (.referenceError "alias")
  | none =>
    if data.type? = some "unauthorized" then .error (.referenceError "alias")
    else .ok []

/-- One inbound frame processed end to end while a connection is open:
`JSON.parse` then the `message` listener.  An exception anywhere in the
listener is reported to the host and swallowed by the event loop: no
event reaches the application and the socket cache — hence the
connection — is untouched (the listener never writes any state). -/
def processFrame (s : WSState) (raw : RawFrame) : WSState × List EmittedEvent :=
  match raw with
  | .malformed => (s, [])
  | .parsed data =>
    match wsUtilJsListener data with
    | .ok events => (s, events)
    | .error _ => (s, [])

/-- The event names the facade re-publishes (`src/src/Client.js` lines
134–140): the constructor copies each of these events from the WebSocket
endpoint onto the `Client` itself. -/
def clientRedirectEvents : List String :=
  ["message", "messageupdate", "messagedeletion", "autherror"]

/-! ## Message listing: endpoint request and client-side refinement -/

/-- A request issued through `Endpoint.request`: route, HTTP method,
header table and JSON body, as handed to the transport helper. -/
structure ApiRequest where
  route : String
  method : String := "GET"
  headers : JsObj String := []
  body : JsObj String := []
deriving DecidableEq, Repr

/-- JS string coercion of an array of strings, as performed when an array
is used as an object property key: `Array.prototype.toString`, i.e. the
elements joined with commas. -/
def jsArrayToString (l : List String) : String :=
  String.intercalate "," l

/-- `JSON.stringify` of an array of strings none of which needs escaping
(the verified inputs are plain alias handles). -/
def jsonStringifyArray (l : List String) : String :=
  "[" ++ String.intercalate "," (l.map (fun s => "\"" ++ s ++ "\"")) ++ "]"

/-- `MessagesEndpoint.getMessagesForAlias(ownAlias, interlocutors,
sinceTime)` (`src/src/MessagesEndpoint.js` lines 32–48), up to the point
where the single listing request is handed to `this.request`.  The
headers object starts with the key `user-alias-name` mapped to `ownAlias`; then
`headers[interlocutors] = JSON.stringify(interlocutors)` — the array
itself is the property key, which JS coerces with `toString()` to the
comma-joined handles — and optionally a `since-time` header. -/
def getMessagesForAliasRequest (ownAlias : String)
    (interlocutors : Option (List String)) (sinceTime : Option Nat) : ApiRequest :=
  let headers : JsObj String := jsObjSet [] "user-alias-name" ownAlias
  let headers : JsObj String :=
    match interlocutors with
    | some il => jsObjSet headers (jsArrayToString il) (jsonStringifyArray il)
    | none => headers
  let headers : JsObj String :=
    match sinceTime with
    | some t => jsObjSet headers "since-time" (toString t)
    | none => headers
  { route := "messages", method := "GET", headers := headers }

/-- The match policy of `Client.getMessages`. -/
inductive MatchPolicy where
  | any | all | exact
deriving DecidableEq, Repr

/-- An element of the `from`/`to`/`participants` arguments: either a bare
handle string or an `Identity` object. -/
inductive Party where
  | handle (h : String) : Party
  | ident (i : Identity) : Party
deriving DecidableEq, Repr

/-- The normalisation applied to each party:
`p instanceof Identity ? p.handle : p`. -/
def Party.toHandle : Party → String
  | .handle h => h
  | .ident i => i.handle

/-- The options object of `Client.getMessages`.  `matchP` and `exactP`
model the `match` and deprecated `exact` named options (absent =
`undefined`); `sinceTime` is the `since` date as epoch milliseconds. -/
structure GetMessagesOpts where
  fromP : List Party := []
  toP : List Party := []
  participantsP : List Party := []
  sinceTime : Option Nat := none
  matchP : Option MatchPolicy := none
  exactP : Option Bool := none
deriving Repr

/-- Resolution of the effective match policy
(`src/src/Client.js` lines 237–242): if `exact` was given and `match` was
not, `match = exact ? "exact" : "any"`; then `match = match || "any"`. -/
def resolveMatch (matchP : Option MatchPolicy) (exactP : Option Bool) : MatchPolicy :=
  match matchP with
  | some m => m
  | none =>
    match exactP with
    | some e => if e then .exact else .any
    | none => .any

/-- The per-message predicate of the client-side refinement
(`src/src/Client.js` lines 254–300), with the early `return false`
branches flattened into nested conditionals.  `fromL`, `toL` and `partsL`
are the already-normalised, deduplicated handle lists. -/
def messagePassesFilter (fromL toL partsL : List String) (m : MatchPolicy)
    (msg : Message) : Bool :=
  let sender := msg.sender.handle
  if 0 < fromL.length ∧ ¬ fromL.contains sender then false
  else
    let recipients := msg.recipients.map (fun r => r.handle)
    if 0 < toL.length ∧ (intersectionJs recipients toL).length = 0 then false
    else if 0 < toL.length ∧ m ≠ .any ∧
        (intersectionJs recipients toL).length < toL.length then false
    else if 0 < toL.length ∧ m = .exact ∧ toL.length ≠ recipients.length then false
    else if 0 < partsL.length ∧ m ≠ .any then
      (intersectionJs (uniqueJs (sender :: recipients)) partsL).length = partsL.length
    else true

/-- The literal message of the validation error thrown by
`Client.getMessages` for multiple senders under a non-`any` policy. -/
def multipleSendersErrorMessage : String :=
  "Cannot specify more than one sender in ‘from’ when we are looking for exact matches, since messages only have one sender."

/-- `Client.getMessages(options)` (`src/src/Client.js` lines 228–303) as a
function of the logged-in account handle, the options, and the message
list the server replies with.  The result is either the validation error
thrown before any network call, or the pair of the single listing request
issued and the refined message list returned to the caller. -/
def getMessagesRun (accountHandle : String) (opts : GetMessagesOpts)
    (serverReply : List Message) : Except String (ApiRequest × List Message) :=
  let fromL := uniqueJs (opts.fromP.map Party.toHandle)
  let toL := uniqueJs (opts.toP.map Party.toHandle)
  let partsL := uniqueJs (opts.participantsP.map Party.toHandle)
  let m := resolveMatch opts.matchP opts.exactP
  if 1 < fromL.length ∧ m ≠ .any then
    .error multipleSendersErrorMessage
  else
    let interlocutors := uniqueJs (fromL ++ toL ++ partsL)
    let req := getMessagesForAliasRequest accountHandle (some interlocutors) opts.sinceTime
    .ok (req, serverReply.filter (messagePassesFilter fromL toL partsL m))

/-! ## Grouping messages by interlocutor set -/

/-- Lexicographic comparison of two character lists, by code unit: the JS
default string comparison used by `Array.prototype.sort()`. -/
def charListLe : List Char → List Char → Bool
  | [], _ => true
  | _ :: _, [] => false
  | a :: as, b :: bs =>
    if a = b then charListLe as bs
    else decide (a < b)

/-- The JS default string order `a <= b`. -/
def jsStringLe (a b : String) : Bool :=
  charListLe a.data b.data

/-- `arr.sort()` on an array of strings: JS sorts lexicographically when no
comparator is given; modelled as insertion sort under `jsStringLe` (the
inputs this programme sorts are duplicate-free, so any correct sort gives
this output). -/
def sortStrings (l : List String) : List String :=
  List.insertionSort (fun a b => jsStringLe a b = true) l

/-- The grouping key computed for each message by
`Client.groupMessagesByUniqueRecipients` (`src/src/Client.js` lines
510–525): `[...new Set([v.sender.id, ...v.recipients.map(c => c.id)])]
.sort().join("")` — the distinct interlocutor ids, sorted, concatenated
with the empty separator. -/
def interlocutorKey (msg : Message) : String :=
  String.join (sortStrings (uniqueJs (msg.sender.id :: msg.recipients.map (fun c => c.id))))

/-- `(r[k] || (r[k] = [])).push(v)` over an accumulator object modelled as
an association list in key-insertion order (the computed keys are
non-numeric strings, so `Object.values` returns groups in that order). -/
def pushToGroup : List (String × List Message) → String → Message →
    List (String × List Message)
  | [], k, msg => [(k, [msg])]
  | (k', group) :: rest, k, msg =>
    if k' = k then (k', group ++ [msg]) :: rest
    else (k', group) :: pushToGroup rest k msg

/-- `Client.groupMessagesByUniqueRecipients(messages)`: the reduce over
the messages followed by `Object.values`. -/
def groupMessagesByUniqueRecipients (messages : List Message) : List (List Message) :=
  (messages.foldl (fun r msg => pushToGroup r (interlocutorKey msg) msg) []).map
    (fun p => p.2)

/-! ## Transport error normalisation -/

/-- The parsed JSON body of an error response; `message?` is its `message`
property (`none` when absent). -/
structure ErrorBody where
  message? : Option String := none
deriving DecidableEq, Repr

/-- A fetch `Response` as `getErrorFromResponse` consumes it: the HTTP
status, and the result of `response.json()` on the body (`none` when the
body is not parseable JSON). -/
structure HttpResponse where
  status : Nat
  bodyJson? : Option ErrorBody := none
deriving DecidableEq, Repr

/-- `Response.ok`: status in the range 200–299. -/
def responseOk (r : HttpResponse) : Bool :=
  200 ≤ r.status ∧ r.status ≤ 299

/-- `new Error(m).message` for `m` the value of the `message` property of the body
property: the string itself, or the empty string when the property is
absent (`new Error(undefined)`). -/
def jsNewErrorMessage (message? : Option String) : String :=
  match message? with
  | some m => m
  | none => ""

/-- `getErrorFromResponse(response)` (`src/unnamed/part_013` lines
201–218): an `ok` response resolves to the response itself, untouched;
otherwise the rejected response is caught, its body parsed with
`response.json()` (whose own failure propagates as a parse error), and
`new Error(errorJSON.message)` is thrown. -/
def getErrorFromResponse (r : HttpResponse) : Except JsError HttpResponse :=
  if responseOk r then .ok r
  else
    match r.bodyJson? with
    | none => .error .parseError
    | some body => .error (.appError (jsNewErrorMessage body.message?))

/-! ## Private data: update and delete -/

/-- The wire form of one private-data record as the payloads route returns
it: the own id of the record, the entity it is attached to, and the payload. -/
structure PayloadDTO where
  id : String
  entityId : String
  payload : String
deriving DecidableEq, Repr

/-- A server reply body, as the private-data endpoint methods read it. -/
inductive Reply where
  /-- A JSON array of payload records (the reply to `GET payloads/:id`). -/
  | payloadList (records : List PayloadDTO) : Reply
  /-- A result object whose `data` property holds the record (replies to `POST`/`PUT`). -/
  | payloadResult (record : PayloadDTO) : Reply
  /-- A bare validation message (reply to `DELETE`). -/
  | ack (msg : String) : Reply
deriving DecidableEq, Repr

/-- A server model: how the chat server answers each request.  An
`Except.error` is a rejected fetch (non-2xx surfaced by the transport
helper). -/
def Server := ApiRequest → Except JsError Reply

/-- The request issued by `PrivateDataEndpoint.getPayload(ownAlias,
entityId)` (`src/src/endpoints/PrivateDataEndpoint.js` lines 44–52). -/
def getPayloadRequest (ownAlias entityId : String) : ApiRequest :=
  { route := "payloads/" ++ entityId, method := "GET",
    headers := [("user-alias-name", ownAlias)] }

/-- `PrivateDataEndpoint.getPayload`: issue the lookup request and read
`payloadDTO[0]` from the reply.  When the reply array is empty,
`payloadDTO[0]` is `undefined` and reading `.payload` from it throws a
`TypeError`; a rejected request propagates unchanged through `await`. -/
def getPayloadRun (srv : Server) (ownAlias entityId : String) :
    List ApiRequest × Except JsError PayloadDTO :=
  ([getPayloadRequest ownAlias entityId],
   match srv (getPayloadRequest ownAlias entityId) with
   | .error e => .error e
   | .ok (.payloadList (record :: _)) => .ok record
   | .ok (.payloadList []) => .error .typeError
   | .ok _ => .error .typeError)

/-- `PrivateDataEndpoint.updatePayload(ownAlias, entityId, newData)`
(lines 61–73): first `await this.getPayload(ownAlias, entityId)`, destructuring
the id of the fetched record as `payloadId`, then a `PUT payloads/:payloadId`
request.  The returned pair
is the list of requests issued, in order, and the overall outcome; a
rejection of the lookup aborts the method before the `PUT` is built. -/
def updatePayloadRun (srv : Server) (ownAlias entityId newData : String) :
    List ApiRequest × Except JsError Reply :=
  let lookup := getPayloadRun srv ownAlias entityId
  match lookup.2 with
  | .error e => (lookup.1, .error e)
  | .ok record =>
    let putReq : ApiRequest :=
      { route := "payloads/" ++ record.id, method := "PUT",
        headers := [("user-alias-name", ownAlias)],
        body := [("payload", newData)] }
    (lookup.1 ++ [putReq], srv putReq)

/-- `PrivateDataEndpoint.deletePayload(ownAlias, entityId)` (lines 81–89):
the same lookup, then `DELETE payloads/:payloadId`. -/
def deletePayloadRun (srv : Server) (ownAlias entityId : String) :
    List ApiRequest × Except JsError Reply :=
  let lookup := getPayloadRun srv ownAlias entityId
  match lookup.2 with
  | .error e => (lookup.1, .error e)
  | .ok record =>
    let delReq : ApiRequest :=
      { route := "payloads/" ++ record.id, method := "DELETE",
        headers := [("user-alias-name", ownAlias)] }
    (lookup.1 ++ [delReq], srv delReq)

/-! ## Concrete inputs used by witnesses and counterexamples -/

/-- Identities A, B, C, S for the message-filtering and grouping examples. -/
def idA : Identity := { id := "idA", handle := "A" }

def idB : Identity := { id := "idB", handle := "B" }

def idC : Identity := { id := "idC", handle := "C" }

def idS : Identity := { id := "idS", handle := "S" }

/-- The spec example M1: a message to A and B. -/
def exampleMsg1 : Message := { id := "m1", sender := idS, recipients := [idA, idB] }

/-- The spec example M2: a message to A alone. -/
def exampleMsg2 : Message := { id := "m2", sender := idS, recipients := [idA] }

/-- The spec example M3: a message to A, B and C. -/
def exampleMsg3 : Message := { id := "m3", sender := idS, recipients := [idA, idB, idC] }

/-- A message whose recipient list repeats identity A: its recipient set
is exactly the set of A and B. -/
def dupRecipientsMsg : Message := { id := "m9", sender := idS, recipients := [idA, idA, idB] }

/-- Grouping example: A writes to B. -/
def groupMsg1 : Message := { id := "g1", sender := idA, recipients := [idB] }

/-- Grouping example: B writes to A. -/
def groupMsg2 : Message := { id := "g2", sender := idB, recipients := [idA] }

/-- Grouping example: A writes to C. -/
def groupMsg3 : Message := { id := "g3", sender := idA, recipients := [idC] }

/-- A message whose interlocutor identity ids are `ab` and `c`. -/
def collideMsgX : Message :=
  { id := "x1", sender := { id := "ab", handle := "HAB" },
    recipients := [{ id := "c", handle := "HC" }] }

/-- A message whose interlocutor identity ids are `a` and `bc`: a
different id set whose sorted concatenation collides with `collideMsgX`. -/
def collideMsgY : Message :=
  { id := "x2", sender := { id := "a", handle := "HA" },
    recipients := [{ id := "bc", handle := "HBC" }] }

/-- A concrete server for the C10 witness: one private-data record
`p7` attached to entity `e1`; every other request is acknowledged. -/
def payloadServerExample : Server := fun req =>
  if req = getPayloadRequest "me" "e1" then
    .ok (.payloadList [{ id := "p7", entityId := "e1", payload := "x" }])
  else if req = getPayloadRequest "me" "missing" then
    .error (.appError "no payload found")
  else
    .ok (.ack "ok")

/-! ## Supporting lemmas -/

theorem mem_uniqueJsAux (a : String) :
    ∀ (l seen : List String), a ∈ uniqueJsAux seen l ↔ a ∈ l ∧ a ∉ seen := by
  intro l
  induction l with
  | nil =>
    intro seen
    simp [uniqueJsAux]
  | cons x xs ih =>
    intro seen
    by_cases hx : x ∈ seen
    · rw [uniqueJsAux, if_pos hx, ih]
      constructor
      · rintro ⟨h1, h2⟩
        exact ⟨List.mem_cons_of_mem _ h1, h2⟩
      · rintro ⟨h1, h2⟩
        rcases List.mem_cons.mp h1 with rfl | h1'
        · exact absurd hx h2
        · exact ⟨h1', h2⟩
    · rw [uniqueJsAux, if_neg hx]
      simp only [List.mem_cons, ih (x :: seen)]
      constructor
      · rintro (rfl | ⟨h1, h2⟩)
        · exact ⟨Or.inl rfl, hx⟩
        · exact ⟨Or.inr h1, fun hs => h2 (Or.inr hs)⟩
      · rintro ⟨rfl | h1, h2⟩
        · exact Or.inl rfl
        · by_cases hax : a = x
          · exact Or.inl hax
          · exact Or.inr ⟨h1, fun hor => hor.elim hax h2⟩

theorem mem_uniqueJs (a : String) (l : List String) : a ∈ uniqueJs l ↔ a ∈ l := by
  rw [uniqueJs, mem_uniqueJsAux]
  simp

theorem nodup_uniqueJsAux : ∀ (l seen : List String), (uniqueJsAux seen l).Nodup := by
  intro l
  induction l with
  | nil =>
    intro seen
    simp [uniqueJsAux]
  | cons x xs ih =>
    intro seen
    by_cases hx : x ∈ seen
    · rw [uniqueJsAux, if_pos hx]
      exact ih seen
    · rw [uniqueJsAux, if_neg hx]
      refine List.nodup_cons.mpr ⟨?_, ih (x :: seen)⟩
      intro hmem
      exact ((mem_uniqueJsAux x xs (x :: seen)).mp hmem).2 (List.mem_cons_self x seen)

theorem nodup_uniqueJs (l : List String) : (uniqueJs l).Nodup :=
  nodup_uniqueJsAux l []

theorem mem_intersectionJs (a : String) (l1 l2 : List String) :
    a ∈ intersectionJs l1 l2 ↔ a ∈ l1 ∧ a ∈ l2 := by
  simp [intersectionJs, List.mem_filter, mem_uniqueJs]

theorem nodup_intersectionJs (l1 l2 : List String) : (intersectionJs l1 l2).Nodup :=
  (nodup_uniqueJs l1).filter _

theorem jsObjGet_jsObjDelete {β : Type} (o : JsObj β) (k : String) :
    jsObjGet (jsObjDelete o k) k = none := by
  induction o with
  | nil => rfl
  | cons p rest ih =>
    by_cases h : p.1 = k
    · simpa [jsObjDelete, jsObjGet, h] using ih
    · simpa [jsObjDelete, jsObjGet, h] using ih

theorem intersectionJs_length_eq_zero (l1 l2 : List String) :
    (intersectionJs l1 l2).length = 0 ↔ ∀ x ∈ l1, x ∉ l2 := by
  rw [List.length_eq_zero, List.eq_nil_iff_forall_not_mem]
  constructor
  · intro h x hx1 hx2
    exact h x ((mem_intersectionJs x l1 l2).mpr ⟨hx1, hx2⟩)
  · intro h x hx
    have hm := (mem_intersectionJs x l1 l2).mp hx
    exact h x hm.1 hm.2

theorem length_le_intersectionJs (l1 l2 : List String) (hnd : l2.Nodup) :
    l2.length ≤ (intersectionJs l1 l2).length ↔ ∀ x ∈ l2, x ∈ l1 := by
  constructor
  · intro hle x hx
    have hsub : intersectionJs l1 l2 ⊆ l2 :=
      fun a ha => ((mem_intersectionJs a l1 l2).mp ha).2
    have hsp : List.Subperm (intersectionJs l1 l2) l2 :=
      List.subperm_of_subset (nodup_intersectionJs l1 l2) hsub
    have hperm : List.Perm (intersectionJs l1 l2) l2 := hsp.perm_of_length_le hle
    exact ((mem_intersectionJs x l1 l2).mp (hperm.mem_iff.mpr hx)).1
  · intro hsub
    have hsp : List.Subperm l2 (intersectionJs l1 l2) :=
      List.subperm_of_subset hnd
        (fun a ha => (mem_intersectionJs a l1 l2).mpr ⟨hsub a ha, ha⟩)
    exact hsp.length_le

theorem messagePassesFilter_to_only (toL : List String) (m : MatchPolicy)
    (msg : Message) (hne : toL ≠ []) :
    messagePassesFilter [] toL [] m msg = true ↔
      (0 < (intersectionJs (msg.recipients.map (fun r => r.handle)) toL).length
       ∧ (m ≠ .any →
           toL.length ≤ (intersectionJs (msg.recipients.map (fun r => r.handle)) toL).length)
       ∧ (m = .exact → toL.length = (msg.recipients.map (fun r => r.handle)).length)) := by
  have hpos : 0 < toL.length := List.length_pos.mpr hne
  unfold messagePassesFilter
  simp only [List.length_nil, lt_self_iff_false, false_and, if_false]
  split_ifs with h1 h2 h3
  · simp only [Bool.false_eq_true, false_iff]
    rintro ⟨ha, -, -⟩
    omega
  · simp only [Bool.false_eq_true, false_iff]
    rintro ⟨-, hb, -⟩
    have := hb h2.2.1
    omega
  · simp only [Bool.false_eq_true, false_iff]
    rintro ⟨-, -, hc⟩
    exact h3.2.2 (hc h3.2.1)
  · simp only [true_iff]
    refine ⟨?_, ?_, ?_⟩
    · have hz : (intersectionJs (msg.recipients.map (fun r => r.handle)) toL).length ≠ 0 :=
        fun hz => h1 ⟨hpos, hz⟩
      omega
    · intro hm
      by_contra hlt
      exact h2 ⟨hpos, hm, Nat.lt_of_not_le hlt⟩
    · intro hm
      by_contra hneq
      exact h3 ⟨hpos, hm, hneq⟩

theorem charListLe_total : ∀ as bs, charListLe as bs = true ∨ charListLe bs as = true := by
  intro as
  induction as with
  | nil =>
    intro bs
    left
    rfl
  | cons a as ih =>
    intro bs
    cases bs with
    | nil =>
      right
      rfl
    | cons b bs =>
      by_cases hab : a = b
      · subst hab
        rcases ih bs with h | h
        · left
          simpa [charListLe] using h
        · right
          simpa [charListLe] using h
      · rcases lt_trichotomy a b with hlt | heq | hgt
        · left
          simp [charListLe, hab, hlt]
        · exact absurd heq hab
        · right
          simp [charListLe, Ne.symm hab, hgt]

theorem charListLe_trans : ∀ as bs cs, charListLe as bs = true →
    charListLe bs cs = true → charListLe as cs = true := by
  intro as
  induction as with
  | nil =>
    intros
    rfl
  | cons a as ih =>
    intro bs cs h1 h2
    cases bs with
    | nil => simp [charListLe] at h1
    | cons b bs =>
      cases cs with
      | nil => simp [charListLe] at h2
      | cons c cs =>
        by_cases hab : a = b <;> by_cases hbc : b = c
        · subst hab
          subst hbc
          simp only [charListLe, if_pos rfl] at h1 h2 ⊢
          exact ih bs cs h1 h2
        · subst hab
          simp only [charListLe, if_pos rfl] at h1
          simp only [charListLe, if_neg hbc, decide_eq_true_eq] at h2
          have hac : a < c := h2
          simp [charListLe, ne_of_lt hac, hac]
        · subst hbc
          simp only [charListLe, if_neg hab, decide_eq_true_eq] at h1
          simp [charListLe, hab, h1]
        · simp only [charListLe, if_neg hab, decide_eq_true_eq] at h1
          simp only [charListLe, if_neg hbc, decide_eq_true_eq] at h2
          have hac : a < c := lt_trans h1 h2
          simp [charListLe, ne_of_lt hac, hac]

theorem charListLe_antisymm : ∀ as bs, charListLe as bs = true →
    charListLe bs as = true → as = bs := by
  intro as
  induction as with
  | nil =>
    intro bs h1 h2
    cases bs with
    | nil => rfl
    | cons b bs => simp [charListLe] at h2
  | cons a as ih =>
    intro bs h1 h2
    cases bs with
    | nil => simp [charListLe] at h1
    | cons b bs =>
      by_cases hab : a = b
      · subst hab
        simp only [charListLe, if_pos rfl] at h1 h2
        rw [ih bs h1 h2]
      · simp only [charListLe, if_neg hab, decide_eq_true_eq] at h1
        simp only [charListLe, if_neg (Ne.symm hab), decide_eq_true_eq] at h2
        exact absurd h2 (lt_asymm h1)

theorem jsStringLe_total (a b : String) :
    jsStringLe a b = true ∨ jsStringLe b a = true :=
  charListLe_total a.data b.data

theorem jsStringLe_trans (a b c : String) (h1 : jsStringLe a b = true)
    (h2 : jsStringLe b c = true) : jsStringLe a c = true :=
  charListLe_trans a.data b.data c.data h1 h2

theorem jsStringLe_antisymm (a b : String) (h1 : jsStringLe a b = true)
    (h2 : jsStringLe b a = true) : a = b := by
  obtain ⟨da⟩ := a
  obtain ⟨db⟩ := b
  exact congrArg String.mk (charListLe_antisymm da db h1 h2)

theorem sortStrings_perm (l : List String) : List.Perm (sortStrings l) l :=
  List.perm_insertionSort _ l

theorem sortStrings_sorted (l : List String) :
    List.Sorted (fun a b => jsStringLe a b = true) (sortStrings l) := by
  letI : IsTotal String (fun a b => jsStringLe a b = true) := ⟨jsStringLe_total⟩
  letI : IsTrans String (fun a b => jsStringLe a b = true) :=
    ⟨fun a b c => jsStringLe_trans a b c⟩
  exact List.sorted_insertionSort _ l

theorem sortStrings_eq_of_perm (l1 l2 : List String) (h : List.Perm l1 l2) :
    sortStrings l1 = sortStrings l2 := by
  letI : IsAntisymm String (fun a b => jsStringLe a b = true) :=
    ⟨fun a b => jsStringLe_antisymm a b⟩
  exact List.eq_of_perm_of_sorted
    ((sortStrings_perm l1).trans (h.trans (sortStrings_perm l2).symm))
    (sortStrings_sorted l1) (sortStrings_sorted l2)

theorem pushToGroup_mem (acc : List (String × List Message)) (k : String)
    (msg : Message) (k' : String) (x : Message) :
    (∃ g, (k', g) ∈ pushToGroup acc k msg ∧ x ∈ g) ↔
      ((∃ g, (k', g) ∈ acc ∧ x ∈ g) ∨ (k' = k ∧ x = msg)) := by
  induction acc with
  | nil =>
    constructor
    · rintro ⟨g, hg, hx⟩
      have hpair : (k', g) = (k, [msg]) := List.mem_singleton.mp hg
      have hk' : k' = k := congrArg Prod.fst hpair
      have hgg : g = [msg] := congrArg Prod.snd hpair
      rw [hgg] at hx
      exact Or.inr ⟨hk', List.mem_singleton.mp hx⟩
    · rintro (⟨g, hg, hx⟩ | ⟨hk', hx⟩)
      · exact absurd hg (List.not_mem_nil _)
      · refine ⟨[msg], ?_, ?_⟩
        · rw [hk']
          exact List.mem_singleton_self _
        · rw [hx]
          exact List.mem_singleton_self _
  | cons p rest ih =>
    obtain ⟨pk, pg⟩ := p
    have hstep : pushToGroup ((pk, pg) :: rest) k msg =
        if pk = k then (pk, pg ++ [msg]) :: rest
        else (pk, pg) :: pushToGroup rest k msg := rfl
    rw [hstep]
    by_cases hpk : pk = k
    · rw [if_pos hpk]
      constructor
      · rintro ⟨g, hg, hx⟩
        rcases List.mem_cons.mp hg with heq | hgrest
        · have hk' : k' = pk := congrArg Prod.fst heq
          have hgg : g = pg ++ [msg] := congrArg Prod.snd heq
          rw [hgg] at hx
          rcases List.mem_append.mp hx with hxin | hxmsg
          · refine Or.inl ⟨pg, ?_, hxin⟩
            rw [hk']
            exact List.mem_cons_self _ _
          · exact Or.inr ⟨hk'.trans hpk, List.mem_singleton.mp hxmsg⟩
        · exact Or.inl ⟨g, List.mem_cons_of_mem _ hgrest, hx⟩
      · rintro (⟨g, hg, hx⟩ | ⟨hk', hx⟩)
        · rcases List.mem_cons.mp hg with heq | hgrest
          · have hk'2 : k' = pk := congrArg Prod.fst heq
            have hgg : g = pg := congrArg Prod.snd heq
            rw [hgg] at hx
            refine ⟨pg ++ [msg], ?_, List.mem_append_left _ hx⟩
            rw [hk'2]
            exact List.mem_cons_self _ _
          · exact ⟨g, List.mem_cons_of_mem _ hgrest, hx⟩
        · refine ⟨pg ++ [msg], ?_, ?_⟩
          · rw [hk', ← hpk]
            exact List.mem_cons_self _ _
          · rw [hx]
            exact List.mem_append_right _ (List.mem_singleton_self _)
    · rw [if_neg hpk]
      constructor
      · rintro ⟨g, hg, hx⟩
        rcases List.mem_cons.mp hg with heq | hgrest
        · have hk'2 : k' = pk := congrArg Prod.fst heq
          have hgg : g = pg := congrArg Prod.snd heq
          rw [hgg] at hx
          refine Or.inl ⟨pg, ?_, hx⟩
          rw [hk'2]
          exact List.mem_cons_self _ _
        · rcases ih.mp ⟨g, hgrest, hx⟩ with ⟨g0, hg0, hx0⟩ | hright
          · exact Or.inl ⟨g0, List.mem_cons_of_mem _ hg0, hx0⟩
          · exact Or.inr hright
      · rintro (⟨g, hg, hx⟩ | hright)
        · rcases List.mem_cons.mp hg with heq | hgrest
          · have hk'2 : k' = pk := congrArg Prod.fst heq
            have hgg : g = pg := congrArg Prod.snd heq
            rw [hgg] at hx
            refine ⟨pg, ?_, hx⟩
            rw [hk'2]
            exact List.mem_cons_self _ _
          · obtain ⟨g0, hg0, hx0⟩ := ih.mpr (Or.inl ⟨g, hgrest, hx⟩)
            exact ⟨g0, List.mem_cons_of_mem _ hg0, hx0⟩
        · obtain ⟨g0, hg0, hx0⟩ := ih.mpr (Or.inr hright)
          exact ⟨g0, List.mem_cons_of_mem _ hg0, hx0⟩

theorem pushToGroup_keys (acc : List (String × List Message)) (k : String)
    (msg : Message) :
    (pushToGroup acc k msg).map Prod.fst =
      if k ∈ acc.map Prod.fst then acc.map Prod.fst
      else acc.map Prod.fst ++ [k] := by
  induction acc with
  | nil => simp [pushToGroup]
  | cons p rest ih =>
    obtain ⟨pk, pg⟩ := p
    have hstep : pushToGroup ((pk, pg) :: rest) k msg =
        if pk = k then (pk, pg ++ [msg]) :: rest
        else (pk, pg) :: pushToGroup rest k msg := rfl
    rw [hstep]
    by_cases hpk : pk = k
    · subst hpk
      simp
    · rw [if_neg hpk]
      simp only [List.map_cons, ih]
      have hmem : (k ∈ pk :: rest.map Prod.fst) ↔ k ∈ rest.map Prod.fst := by
        simp [Ne.symm hpk]
      by_cases hk : k ∈ rest.map Prod.fst
      · rw [if_pos hk, if_pos (hmem.mpr hk)]
      · rw [if_neg hk, if_neg (fun hc => hk (hmem.mp hc))]
        simp

theorem pushToGroup_keys_nodup (acc : List (String × List Message)) (k : String)
    (msg : Message) (h : (acc.map Prod.fst).Nodup) :
    ((pushToGroup acc k msg).map Prod.fst).Nodup := by
  rw [pushToGroup_keys]
  split_ifs with hk
  · exact h
  · exact h.append (List.nodup_singleton k)
      (fun a ha hb => hk (List.mem_singleton.mp hb ▸ ha))

theorem group_eq_of_keys_nodup (acc : List (String × List Message))
    (h : (acc.map Prod.fst).Nodup) (k : String) (g1 g2 : List Message)
    (h1 : (k, g1) ∈ acc) (h2 : (k, g2) ∈ acc) : g1 = g2 := by
  induction acc with
  | nil => cases h1
  | cons p rest ih =>
    rw [List.map_cons, List.nodup_cons] at h
    rcases List.mem_cons.mp h1 with heq1 | h1' <;>
      rcases List.mem_cons.mp h2 with heq2 | h2'
    · rw [← heq2] at heq1
      exact congrArg Prod.snd heq1
    · exfalso
      apply h.1
      rw [← heq1]
      exact List.mem_map.mpr ⟨(k, g2), h2', rfl⟩
    · exfalso
      apply h.1
      rw [← heq2]
      exact List.mem_map.mpr ⟨(k, g1), h1', rfl⟩
    · exact ih h.2 h1' h2'

theorem buildGroups_mem (msgs : List Message)
    (acc : List (String × List Message)) (k' : String) (x : Message) :
    (∃ g, (k', g) ∈ msgs.foldl (fun r m => pushToGroup r (interlocutorKey m) m) acc
        ∧ x ∈ g) ↔
      ((∃ g, (k', g) ∈ acc ∧ x ∈ g) ∨ (x ∈ msgs ∧ interlocutorKey x = k')) := by
  induction msgs generalizing acc with
  | nil => simp
  | cons mh mt ih =>
    rw [List.foldl_cons, ih, pushToGroup_mem]
    constructor
    · rintro ((hacc | ⟨hk, hx⟩) | ⟨hmem, hkey⟩)
      · exact Or.inl hacc
      · subst hx
        exact Or.inr ⟨List.mem_cons_self _ _, hk.symm⟩
      · exact Or.inr ⟨List.mem_cons_of_mem _ hmem, hkey⟩
    · rintro (hacc | ⟨hmem, hkey⟩)
      · exact Or.inl (Or.inl hacc)
      · rcases List.mem_cons.mp hmem with rfl | hmt
        · exact Or.inl (Or.inr ⟨hkey.symm, rfl⟩)
        · exact Or.inr ⟨hmt, hkey⟩

theorem buildGroups_keys_nodup (msgs : List Message)
    (acc : List (String × List Message)) (h : (acc.map Prod.fst).Nodup) :
    ((msgs.foldl (fun r m => pushToGroup r (interlocutorKey m) m) acc).map
      Prod.fst).Nodup := by
  induction msgs generalizing acc with
  | nil => exact h
  | cons mh mt ih => exact ih _ (pushToGroup_keys_nodup _ _ _ h)

/-! ## Claims -/

/-- C1: the claim reads that concurrent `subscribe(h)` calls while the
state for `h` is CONNECTING or OPEN make exactly one underlying
connection attempt.  The code violates the CONNECTING half: starting
from the empty endpoint state, a first `subscribe("h")` constructs
socket 0 and leaves the cache empty (only the `open` listener writes the
cache), so a second `subscribe("h")` issued before that `open` event
misses the cache and constructs socket 1 — two connection attempts for
one handle.  Once OPEN (after the `open` event) a further subscribe does
resolve from the cache without a new attempt. -/
theorem c1_connecting_subscribe_races :
    (getWebSocketForAlias {} "h").2 = .attemptStarted 0
    ∧ (getWebSocketForAlias {} "h").1.aliasNameToWebSocket = []
    ∧ (getWebSocketForAlias (getWebSocketForAlias {} "h").1 "h").2 = .attemptStarted 1
    ∧ (getWebSocketForAlias (getWebSocketForAlias {} "h").1 "h").1.attempts = 2
    ∧ (getWebSocketForAlias
        (socketOpenEvent (getWebSocketForAlias (getWebSocketForAlias {} "h").1 "h").1
          "h" 1) "h").2 = .resolvedFromCache 1
    ∧ (getWebSocketForAlias
        (socketOpenEvent (getWebSocketForAlias (getWebSocketForAlias {} "h").1 "h").1
          "h" 1) "h").1.attempts = 2 := by
  decide

/-- C2: the claim reads that a `message_delete` frame makes the manager
emit a `messagedeletion` event whose detail carries the messageId and
handle, re-published by the facade.  The cited listener instead picks the
name `messagedelete`, and then throws a `ReferenceError` evaluating the
unbound identifier `alias` while building the detail, so no event is
dispatched at all; and even the name it picks is absent from the event
list the facade re-publishes (which expects `messagedeletion`), while
the other three names do appear there. -/
theorem c2_frame_mapping_broken :
    wsUtilJsListener { type? := some "message_delete", messageId? := some "m1" } =
      .error (.referenceError "alias")
    ∧ messageEventNameFor (some "message_delete") = some "messagedelete"
    ∧ clientRedirectEvents.contains "messagedelete" = false
    ∧ clientRedirectEvents.contains "messagedeletion" = true
    ∧ processFrame {} (.parsed { type? := some "message_delete", messageId? := some "m1" }) =
        ({}, [])
    ∧ wsUtilJsListener { type? := some "unauthorized", message? := some "stale" } =
        .error (.referenceError "alias") := by
  decide

/-- C3: `unsubscribe(h)` when no connection for `h` is cached is a no-op
returning the state unchanged (and, being a total function of the state,
it throws nothing); when a connection is cached it performs the close and
removes the cache entry. -/
theorem c3_idempotent_unsubscribe (s : WSState) (h : String) :
    (jsObjGet s.aliasNameToWebSocket h = none → clientUnsubscribe s h = s)
    ∧ (∀ socket, jsObjGet s.aliasNameToWebSocket h = some socket →
        clientUnsubscribe s h = socketCloseEvent s h
        ∧ jsObjGet (clientUnsubscribe s h).aliasNameToWebSocket h = none) := by
  constructor
  · intro hnone
    simp [clientUnsubscribe, closeWebSocketFor, hnone]
  · intro socket hsome
    have hcl : clientUnsubscribe s h = socketCloseEvent s h := by
      simp [clientUnsubscribe, closeWebSocketFor, hsome]
    refine ⟨hcl, ?_⟩
    rw [hcl]
    exact jsObjGet_jsObjDelete s.aliasNameToWebSocket h

/-- C3 witness: a state with a cached socket for `"h"` is closed and
removed; the empty state is returned unchanged. -/
theorem c3_idempotent_unsubscribe_witness :
    jsObjGet (WSState.aliasNameToWebSocket { aliasNameToWebSocket := [("h", 0)] }) "h" =
      some 0
    ∧ jsObjGet
        (clientUnsubscribe { aliasNameToWebSocket := [("h", 0)] } "h").aliasNameToWebSocket
        "h" = none
    ∧ clientUnsubscribe ({} : WSState) "h" = {} :=
  ⟨by decide,
   ((c3_idempotent_unsubscribe { aliasNameToWebSocket := [("h", 0)] } "h").2 0
     (by decide)).2,
   (c3_idempotent_unsubscribe ({} : WSState) "h").1 (by decide)⟩

/-- C4 counterexample: a message whose recipient list `[A, A, B]` repeats
a recipient has recipient set exactly the queried set `[A, B]` (both
deduplicate to `[A, B]`), yet under `match = "exact"` the refinement in
`getMessages` drops it, because the code compares the query size against
the raw recipient-list length (3) rather than the recipient set.  The
claim as stated — exact keeps exactly the messages whose recipient set
equals the queried set — is therefore false on this input. -/
theorem c4_exact_set_equality_fails :
    uniqueJs (dupRecipientsMsg.recipients.map (fun r => r.handle)) = ["A", "B"]
    ∧ uniqueJs ["A", "B"] = ["A", "B"]
    ∧ getMessagesRun "me" { toP := [.handle "A", .handle "B"], matchP := some .exact }
        [dupRecipientsMsg] =
      .ok (getMessagesForAliasRequest "me" (some ["A", "B"]) none, []) := by
  decide

/-- C4 (amended): on the spec example (M1 to A and B; M2 to A; M3 to A, B
and C; query to = A, B) exact returns only M1, all returns M1 and M3, any
returns all three.  In general, for a non-empty duplicate-free query,
`any` keeps the messages whose recipients intersect the query, `all`
keeps those containing every queried recipient, and `exact` keeps those
containing every queried recipient whose raw recipient count equals the
query size — which coincides with recipient-set equality whenever the
recipients of the message are duplicate-free (but not in general, see the
counterexample). -/
theorem c4_match_policy_refinement (toL : List String) (msg : Message)
    (hne : toL ≠ []) (hnd : toL.Nodup) :
    (getMessagesRun "me" { toP := [.handle "A", .handle "B"], matchP := some .exact }
        [exampleMsg1, exampleMsg2, exampleMsg3] =
      .ok (getMessagesForAliasRequest "me" (some ["A", "B"]) none, [exampleMsg1]))
    ∧ (getMessagesRun "me" { toP := [.handle "A", .handle "B"], matchP := some .all }
        [exampleMsg1, exampleMsg2, exampleMsg3] =
      .ok (getMessagesForAliasRequest "me" (some ["A", "B"]) none,
        [exampleMsg1, exampleMsg3]))
    ∧ (getMessagesRun "me" { toP := [.handle "A", .handle "B"], matchP := some .any }
        [exampleMsg1, exampleMsg2, exampleMsg3] =
      .ok (getMessagesForAliasRequest "me" (some ["A", "B"]) none,
        [exampleMsg1, exampleMsg2, exampleMsg3]))
    ∧ (messagePassesFilter [] toL [] .any msg = true ↔
        ∃ x, x ∈ msg.recipients.map (fun r => r.handle) ∧ x ∈ toL)
    ∧ (messagePassesFilter [] toL [] .all msg = true ↔
        ∀ x ∈ toL, x ∈ msg.recipients.map (fun r => r.handle))
    ∧ (messagePassesFilter [] toL [] .exact msg = true ↔
        ((∀ x ∈ toL, x ∈ msg.recipients.map (fun r => r.handle))
          ∧ toL.length = (msg.recipients.map (fun r => r.handle)).length))
    ∧ ((msg.recipients.map (fun r => r.handle)).Nodup →
        (messagePassesFilter [] toL [] .exact msg = true ↔
          ∀ x, x ∈ toL ↔ x ∈ msg.recipients.map (fun r => r.handle))) := by
  have hpos0 : ∀ x l1 l2, x ∈ intersectionJs l1 l2 →
      0 < (intersectionJs l1 l2).length :=
    fun x l1 l2 hx => List.length_pos.mpr (List.ne_nil_of_mem hx)
  have hany : messagePassesFilter [] toL [] .any msg = true ↔
      ∃ x, x ∈ msg.recipients.map (fun r => r.handle) ∧ x ∈ toL := by
    rw [messagePassesFilter_to_only toL .any msg hne]
    constructor
    · rintro ⟨hp, -, -⟩
      obtain ⟨x, hx⟩ := List.exists_mem_of_ne_nil _ (List.ne_nil_of_length_pos hp)
      exact ⟨x, (mem_intersectionJs x _ _).mp hx⟩
    · rintro ⟨x, hx1, hx2⟩
      refine ⟨hpos0 x _ _ ((mem_intersectionJs x _ _).mpr ⟨hx1, hx2⟩), ?_, ?_⟩
      · intro hcon
        exact absurd rfl hcon
      · intro hcon
        cases hcon
  have hall : messagePassesFilter [] toL [] .all msg = true ↔
      ∀ x ∈ toL, x ∈ msg.recipients.map (fun r => r.handle) := by
    rw [messagePassesFilter_to_only toL .all msg hne]
    constructor
    · rintro ⟨-, hle, -⟩
      exact (length_le_intersectionJs _ toL hnd).mp (hle (by intro hcon; cases hcon))
    · intro hsub
      obtain ⟨t, ht⟩ := List.exists_mem_of_ne_nil _ hne
      refine ⟨hpos0 t _ _ ((mem_intersectionJs t _ _).mpr ⟨hsub t ht, ht⟩), ?_, ?_⟩
      · intro _
        exact (length_le_intersectionJs _ toL hnd).mpr hsub
      · intro hcon
        cases hcon
  have hexact : messagePassesFilter [] toL [] .exact msg = true ↔
      ((∀ x ∈ toL, x ∈ msg.recipients.map (fun r => r.handle))
        ∧ toL.length = (msg.recipients.map (fun r => r.handle)).length) := by
    rw [messagePassesFilter_to_only toL .exact msg hne]
    constructor
    · rintro ⟨-, hle, hlen⟩
      exact ⟨(length_le_intersectionJs _ toL hnd).mp (hle (by intro hcon; cases hcon)),
        hlen rfl⟩
    · rintro ⟨hsub, hlen⟩
      obtain ⟨t, ht⟩ := List.exists_mem_of_ne_nil _ hne
      refine ⟨hpos0 t _ _ ((mem_intersectionJs t _ _).mpr ⟨hsub t ht, ht⟩), ?_, ?_⟩
      · intro _
        exact (length_le_intersectionJs _ toL hnd).mpr hsub
      · intro _
        exact hlen
  have hexactSet : (msg.recipients.map (fun r => r.handle)).Nodup →
      (messagePassesFilter [] toL [] .exact msg = true ↔
        ∀ x, x ∈ toL ↔ x ∈ msg.recipients.map (fun r => r.handle)) := by
    intro hrecnd
    rw [hexact]
    constructor
    · rintro ⟨hsub, hlen⟩ x
      have hsp : List.Subperm toL (msg.recipients.map (fun r => r.handle)) :=
        List.subperm_of_subset hnd hsub
      have hperm : List.Perm toL (msg.recipients.map (fun r => r.handle)) :=
        hsp.perm_of_length_le hlen.ge
      exact hperm.mem_iff
    · intro hiff
      have hsub1 : toL ⊆ msg.recipients.map (fun r => r.handle) :=
        fun x hx => (hiff x).mp hx
      have hsub2 : msg.recipients.map (fun r => r.handle) ⊆ toL :=
        fun x hx => (hiff x).mpr hx
      have hperm : List.Perm toL (msg.recipients.map (fun r => r.handle)) :=
        (List.subperm_of_subset hnd hsub1).antisymm
          (List.subperm_of_subset hrecnd hsub2)
      exact ⟨hsub1, hperm.length_eq⟩
  exact ⟨by decide, by decide, by decide, hany, hall, hexact, hexactSet⟩

/-- C4 witness: the amended characterisation instantiated at the
non-empty duplicate-free query `[A]` and the message M2. -/
theorem c4_match_policy_refinement_witness :
    (["A"] : List String) ≠ []
    ∧ (["A"] : List String).Nodup
    ∧ (messagePassesFilter [] ["A"] [] .any exampleMsg2 = true ↔
        ∃ x, x ∈ exampleMsg2.recipients.map (fun r => r.handle)
          ∧ x ∈ (["A"] : List String)) :=
  ⟨by decide, by decide,
   (c4_match_policy_refinement ["A"] exampleMsg2 (by decide) (by decide)).2.2.2.1⟩

/-- C5: the claim reads that the listing request carries the flat
interlocutor set in a field named `interlocutors`.  The cited code
executes `headers[interlocutors] = JSON.stringify(interlocutors)`: the
array itself is the property key, which JavaScript coerces to the
comma-joined string of its elements.  For the set `A, B` the request
therefore carries a header named `A,B` (holding the JSON-encoded set)
and no `interlocutors` field at all; the `getMessages` pipeline is shown
handing exactly this request to the transport.  (The older variant
`src/unnamed/part_018` writes the literal key `interlocutors`, which is
the intended protocol.) -/
theorem c5_interlocutors_header_misnamed :
    getMessagesForAliasRequest "me" (some ["A", "B"]) none =
      { route := "messages", method := "GET",
        headers := [("user-alias-name", "me"), ("A,B", "[\"A\",\"B\"]")] }
    ∧ ((getMessagesForAliasRequest "me" (some ["A", "B"]) none).headers.map
        Prod.fst).contains "interlocutors" = false
    ∧ getMessagesRun "me" { toP := [.handle "A", .handle "B"] } [] =
        .ok (getMessagesForAliasRequest "me" (some ["A", "B"]) none, []) := by
  decide

/-- C6: a frame whose discriminant is none of the four known values runs
the listener to completion with zero dispatched events and no error, and
a frame whose payload fails `JSON.parse` is dropped by the event loop;
in both cases the endpoint state — in particular the socket cache, hence
the open connection — is untouched. -/
theorem c6_unknown_malformed_frames_dropped (s : WSState) (d : FrameData)
    (hunknown : d.type? ∉ [some "new_message", some "message_update",
      some "message_delete", some "unauthorized"]) :
    wsUtilJsListener d = .ok []
    ∧ processFrame s (.parsed d) = (s, [])
    ∧ processFrame s .malformed = (s, []) := by
  simp only [List.mem_cons, List.mem_singleton, not_or] at hunknown
  obtain ⟨h1, h2, h3, h4⟩ := hunknown
  have hlst : wsUtilJsListener d = .ok [] := by
    simp [wsUtilJsListener, messageEventNameFor, h1, h2, h3, h4]
  exact ⟨hlst, by simp [processFrame, hlst], rfl⟩

/-- C6 witness: a forward-compatibility frame with an unknown
discriminant, processed in a state holding an open connection. -/
theorem c6_unknown_malformed_frames_dropped_witness :
    ({ type? := some "typing_started" } : FrameData).type? ∉
      [some "new_message", some "message_update", some "message_delete",
        some "unauthorized"]
    ∧ processFrame { aliasNameToWebSocket := [("h", 0)] }
        (.parsed { type? := some "typing_started" }) =
        ({ aliasNameToWebSocket := [("h", 0)] }, []) :=
  ⟨by decide,
   (c6_unknown_malformed_frames_dropped { aliasNameToWebSocket := [("h", 0)] }
     { type? := some "typing_started" } (by decide)).2.1⟩

/-- C7: `getMessages` with two distinct senders in `from` and
`match = "exact"` throws the validation error before any listing request
is built — the run yields the error and no request/response pair. -/
theorem c7_exact_multi_sender_rejected (own x y : String) (toP participantsP : List Party)
    (since : Option Nat) (reply : List Message) (hxy : x ≠ y) :
    getMessagesRun own
      { fromP := [.handle x, .handle y], toP := toP, participantsP := participantsP,
        sinceTime := since, matchP := some .exact } reply =
      .error multipleSendersErrorMessage := by
  have huniq : uniqueJs [x, y] = [x, y] := by
    simp [uniqueJs, uniqueJsAux, Ne.symm hxy]
  simp [getMessagesRun, Party.toHandle, huniq, resolveMatch]

/-- C7 witness: the spec example `from = [X, Y]`, `match = "exact"`. -/
theorem c7_exact_multi_sender_rejected_witness :
    ("X" : String) ≠ "Y"
    ∧ getMessagesRun "me"
        { fromP := [.handle "X", .handle "Y"], toP := [], participantsP := [],
          sinceTime := none, matchP := some .exact } [] =
        .error multipleSendersErrorMessage :=
  ⟨by decide,
   c7_exact_multi_sender_rejected "me" "X" "Y" [] [] none [] (by decide)⟩

/-- C8 counterexample: the grouping key is the sorted deduplicated
interlocutor ids joined with the empty separator, so the distinct id sets
of `collideMsgX` (ids `ab`, `c`) and `collideMsgY` (ids `a`, `bc`) both
produce the key `abc`, and the two messages land in one group.  The
claim as stated — same group if and only if equal unordered interlocutor
id sets — is therefore false at this input: the sets differ (`ab` is in
one and not the other, witnessed below by their deduplicated id lists)
while the messages share a group. -/
theorem c8_grouping_key_collides :
    groupMessagesByUniqueRecipients [collideMsgX, collideMsgY] =
      [[collideMsgX, collideMsgY]]
    ∧ interlocutorKey collideMsgX = "abc"
    ∧ interlocutorKey collideMsgY = "abc"
    ∧ uniqueJs (collideMsgX.sender.id :: collideMsgX.recipients.map (fun c => c.id)) =
        ["ab", "c"]
    ∧ uniqueJs (collideMsgY.sender.id :: collideMsgY.recipients.map (fun c => c.id)) =
        ["a", "bc"]
    ∧ (["ab", "c"] : List String) ≠ ["a", "bc"] := by
  decide

/-- C8 (amended): `groupMessagesByUniqueRecipients` is a pure function of
its input list; two messages of the input share a group exactly when
their grouping keys — the sorted deduplicated interlocutor id lists
joined with the empty separator — are equal.  Equal unordered
interlocutor id sets always give equal keys (so set-equal messages do
share a group), but the converse only holds when the concatenation is
unambiguous (see the counterexample); on the spec example the function
returns exactly two groups, one with the first two messages, one with
the third. -/
theorem c8_grouping_by_interlocutor_key (msgs : List Message) (x y : Message) :
    ((∃ g, g ∈ groupMessagesByUniqueRecipients msgs ∧ x ∈ g ∧ y ∈ g) ↔
      (x ∈ msgs ∧ y ∈ msgs ∧ interlocutorKey x = interlocutorKey y))
    ∧ ((∀ s, s ∈ x.sender.id :: x.recipients.map (fun c => c.id) ↔
          s ∈ y.sender.id :: y.recipients.map (fun c => c.id)) →
        interlocutorKey x = interlocutorKey y)
    ∧ groupMessagesByUniqueRecipients [groupMsg1, groupMsg2, groupMsg3] =
        [[groupMsg1, groupMsg2], [groupMsg3]] := by
  refine ⟨?_, ?_, by decide⟩
  · unfold groupMessagesByUniqueRecipients
    constructor
    · rintro ⟨g, hg, hx, hy⟩
      rw [List.mem_map] at hg
      obtain ⟨⟨k, g0⟩, hmem, hpe⟩ := hg
      rw [← hpe] at hx hy
      have hx' := (buildGroups_mem msgs [] k x).mp ⟨g0, hmem, hx⟩
      have hy' := (buildGroups_mem msgs [] k y).mp ⟨g0, hmem, hy⟩
      rcases hx' with ⟨g', hg', -⟩ | ⟨hxm, hxk⟩
      · exact absurd hg' (List.not_mem_nil _)
      · rcases hy' with ⟨g', hg', -⟩ | ⟨hym, hyk⟩
        · exact absurd hg' (List.not_mem_nil _)
        · exact ⟨hxm, hym, hxk.trans hyk.symm⟩
    · rintro ⟨hx, hy, hk⟩
      obtain ⟨g1, hg1, hxg⟩ :=
        (buildGroups_mem msgs [] (interlocutorKey x) x).mpr (Or.inr ⟨hx, rfl⟩)
      obtain ⟨g2, hg2, hyg⟩ :=
        (buildGroups_mem msgs [] (interlocutorKey x) y).mpr (Or.inr ⟨hy, hk.symm⟩)
      have hnd := buildGroups_keys_nodup msgs [] (by simp)
      have heq := group_eq_of_keys_nodup _ hnd _ _ _ hg1 hg2
      refine ⟨g1, List.mem_map.mpr ⟨(interlocutorKey x, g1), hg1, rfl⟩, hxg, ?_⟩
      rw [heq]
      exact hyg
  · intro hset
    unfold interlocutorKey
    have hperm : List.Perm
        (uniqueJs (x.sender.id :: x.recipients.map (fun c => c.id)))
        (uniqueJs (y.sender.id :: y.recipients.map (fun c => c.id))) := by
      apply List.Subperm.antisymm
      · exact List.subperm_of_subset (nodup_uniqueJs _)
          (fun a ha => (mem_uniqueJs a _).mpr ((hset a).mp ((mem_uniqueJs a _).mp ha)))
      · exact List.subperm_of_subset (nodup_uniqueJs _)
          (fun a ha => (mem_uniqueJs a _).mpr ((hset a).mpr ((mem_uniqueJs a _).mp ha)))
    rw [sortStrings_eq_of_perm _ _ hperm]

/-- C8 witness: the grouping characterisation instantiated on the spec
example, with the set-equality hypothesis discharged for the first two
messages (sets both equal to the ids of A and B). -/
theorem c8_grouping_by_interlocutor_key_witness :
    ((∃ g, g ∈ groupMessagesByUniqueRecipients [groupMsg1, groupMsg2, groupMsg3]
        ∧ groupMsg1 ∈ g ∧ groupMsg2 ∈ g) ↔
      (groupMsg1 ∈ [groupMsg1, groupMsg2, groupMsg3]
        ∧ groupMsg2 ∈ [groupMsg1, groupMsg2, groupMsg3]
        ∧ interlocutorKey groupMsg1 = interlocutorKey groupMsg2))
    ∧ interlocutorKey groupMsg1 = interlocutorKey groupMsg2 :=
  ⟨(c8_grouping_by_interlocutor_key [groupMsg1, groupMsg2, groupMsg3]
      groupMsg1 groupMsg2).1,
   (c8_grouping_by_interlocutor_key [groupMsg1, groupMsg2, groupMsg3]
      groupMsg1 groupMsg2).2.1
     (by intro s; constructor <;> intro h <;> simp_all [groupMsg1, groupMsg2, idA, idB] <;> tauto)⟩

/-- C9: a non-2xx response whose JSON body carries a `message` string is
turned into an error carrying exactly that string; a 2xx response is
passed through unchanged. -/
theorem c9_server_error_message_surfaced (r : HttpResponse) (m : String) :
    (¬ (200 ≤ r.status ∧ r.status ≤ 299) → r.bodyJson? = some { message? := some m } →
      getErrorFromResponse r = .error (.appError m))
    ∧ (200 ≤ r.status ∧ r.status ≤ 299 → getErrorFromResponse r = .ok r) := by
  constructor
  · intro hbad hbody
    simp [getErrorFromResponse, responseOk, hbad, hbody, jsNewErrorMessage]
  · intro hok
    simp [getErrorFromResponse, responseOk, hok.1, hok.2]

/-- C9 witness: a 404 with body message `boom`, and a plain 200. -/
theorem c9_server_error_message_surfaced_witness :
    ¬ (200 ≤ 404 ∧ 404 ≤ 299)
    ∧ getErrorFromResponse { status := 404, bodyJson? := some { message? := some "boom" } } =
        .error (.appError "boom")
    ∧ getErrorFromResponse { status := 200 } = .ok { status := 200 } :=
  ⟨by decide,
   (c9_server_error_message_surfaced
     { status := 404, bodyJson? := some { message? := some "boom" } } "boom").1
     (by decide) rfl,
   (c9_server_error_message_surfaced { status := 200 } "unused").2 (by decide)⟩

/-- C10: `updatePayload` and `deletePayload` both begin with the
`getPayload` lookup for `(handle, entityId)`; when the lookup fails the
whole operation rejects with that error after the single lookup request
(no mutation request is issued); when it succeeds, exactly two requests
go out and the mutation is addressed at `payloads/<record.id>` — the
internal id of the fetched record, not the entity id. -/
theorem c10_mutation_via_lookup (srv : Server) (own entity newData : String) :
    ((updatePayloadRun srv own entity newData).1.head? = some (getPayloadRequest own entity)
      ∧ (deletePayloadRun srv own entity).1.head? = some (getPayloadRequest own entity))
    ∧ (∀ e, (getPayloadRun srv own entity).2 = .error e →
        updatePayloadRun srv own entity newData = ([getPayloadRequest own entity], .error e)
        ∧ deletePayloadRun srv own entity = ([getPayloadRequest own entity], .error e))
    ∧ (∀ record, (getPayloadRun srv own entity).2 = .ok record →
        (updatePayloadRun srv own entity newData).1 =
          [getPayloadRequest own entity,
           { route := "payloads/" ++ record.id, method := "PUT",
             headers := [("user-alias-name", own)], body := [("payload", newData)] }]
        ∧ (deletePayloadRun srv own entity).1 =
          [getPayloadRequest own entity,
           { route := "payloads/" ++ record.id, method := "DELETE",
             headers := [("user-alias-name", own)] }]) := by
  have h1 : (getPayloadRun srv own entity).1 = [getPayloadRequest own entity] := rfl
  have hupdErr : ∀ e, (getPayloadRun srv own entity).2 = .error e →
      updatePayloadRun srv own entity newData =
        ([getPayloadRequest own entity], .error e) := by
    intro e he
    simp only [updatePayloadRun, he, h1]
  have hdelErr : ∀ e, (getPayloadRun srv own entity).2 = .error e →
      deletePayloadRun srv own entity = ([getPayloadRequest own entity], .error e) := by
    intro e he
    simp only [deletePayloadRun, he, h1]
  have hupdOk : ∀ record, (getPayloadRun srv own entity).2 = .ok record →
      (updatePayloadRun srv own entity newData).1 =
        [getPayloadRequest own entity,
         { route := "payloads/" ++ record.id, method := "PUT",
           headers := [("user-alias-name", own)], body := [("payload", newData)] }] := by
    intro record hrec
    simp only [updatePayloadRun, hrec, h1]
    rfl
  have hdelOk : ∀ record, (getPayloadRun srv own entity).2 = .ok record →
      (deletePayloadRun srv own entity).1 =
        [getPayloadRequest own entity,
         { route := "payloads/" ++ record.id, method := "DELETE",
           headers := [("user-alias-name", own)] }] := by
    intro record hrec
    simp only [deletePayloadRun, hrec, h1]
    rfl
  refine ⟨⟨?_, ?_⟩, fun e he => ⟨hupdErr e he, hdelErr e he⟩,
    fun record hrec => ⟨hupdOk record hrec, hdelOk record hrec⟩⟩
  · cases hres : (getPayloadRun srv own entity).2 with
    | error e => simp [hupdErr e hres]
    | ok record => simp [hupdOk record hres]
  · cases hres : (getPayloadRun srv own entity).2 with
    | error e => simp [hdelErr e hres]
    | ok record => simp [hdelOk record hres]

/-- C10 witness: against `payloadServerExample`, the update of entity
`e1` issues the lookup then a `PUT payloads/p7`, and the update of the
absent entity `missing` rejects with the lookup error after one request. -/
theorem c10_mutation_via_lookup_witness :
    (getPayloadRun payloadServerExample "me" "e1").2 =
      .ok { id := "p7", entityId := "e1", payload := "x" }
    ∧ (updatePayloadRun payloadServerExample "me" "e1" "nd").1 =
        [getPayloadRequest "me" "e1",
         { route := "payloads/p7", method := "PUT",
           headers := [("user-alias-name", "me")], body := [("payload", "nd")] }]
    ∧ updatePayloadRun payloadServerExample "me" "missing" "nd" =
        ([getPayloadRequest "me" "missing"], .error (.appError "no payload found")) := by
  have hok : (getPayloadRun payloadServerExample "me" "e1").2 =
      .ok { id := "p7", entityId := "e1", payload := "x" } := rfl
  have hmiss : (getPayloadRun payloadServerExample "me" "missing").2 =
      .error (.appError "no payload found") := rfl
  refine ⟨hok, ?_, ?_⟩
  · exact ((c10_mutation_via_lookup payloadServerExample "me" "e1" "nd").2.2 _ hok).1
  · exact ((c10_mutation_via_lookup payloadServerExample "me" "missing" "nd").2.1 _ hmiss).1

end ChatLib
